import Mathlib

/-!
Verification of the chat relay server (cmd/server/server.go together with
the shared constants in internal/common).  Go byte strings are modelled as
lists of byte values, connection handles as opaque naturals, the connection
registry (a Go map from username to connection) as an association list with
unique keys, and each long-running loop by its per-iteration step function.
-/

namespace Chat

/-- A Go string, viewed as its sequence of byte values. -/
abbrev GoString := List Nat

/-- The byte values of a Lean string literal (all literals used are ASCII,
so each character is one byte, as in the Go source). -/
def str (s : String) : GoString := s.toList.map Char.toNat

/-- common.MAX_USERNAME_LENGTH. -/
def MAX_USERNAME_LENGTH : Nat := 32

/-- common.MAX_MESSAGE_LENGTH. -/
def MAX_MESSAGE_LENGTH : Nat := 2048

/-- The Message struct shared by server and client. -/
structure Message where
  To : GoString
  From : GoString
  Content : GoString
  Error : Bool
deriving DecidableEq, Repr

/-- An opaque handle standing for a net.Conn. -/
abbrev ConnHandle := Nat

/-- The `connections map[string]Connection` registry: an association list
from username to connection handle, keys unique. -/
abbrev Registry := List (GoString × ConnHandle)

/-- Go map read `conn, ok := connections[name]`. -/
def lookup (reg : Registry) (name : GoString) : Option ConnHandle :=
  match reg.find? (fun p => decide (p.1 = name)) with
  | some p => some p.2
  | none => none

/-- Go `delete(connections, name)` (receive_messages' cleanup path). -/
def unregister (reg : Registry) (name : GoString) : Registry :=
  reg.filter (fun p => ! decide (p.1 = name))

/-- server.send_error: builds the error Message sent to a client.  The To
and From fields are the empty string and the error bit is set. -/
def send_error (error_msg : GoString) : Message :=
  Message.mk [] [] error_msg true

/-- One iteration of server.receive_messages on a successfully decoded
message: the length checks compare `uint16(len(...))` (hence the reduction
modulo 2^16) against the limits, and on success the From field is
overwritten with the pipeline's registered username before the message is
put on the queue.  `none` means the loop breaks without enqueuing. -/
def receive_messages_step (username : GoString) (msg : Message) : Option Message :=
  let to_size := msg.To.length % 65536
  let msg_size := msg.Content.length % 65536
  if to_size > MAX_USERNAME_LENGTH then none
  else if msg_size > MAX_MESSAGE_LENGTH then none
  else some { msg with From := username }

/-- The outcome of server.receive_connection, with the messages written to
the peer during the handshake (the source contains no write to the peer on
any handshake path). -/
structure HandshakeResult where
  username : Option GoString
  sentToPeer : List Message
deriving DecidableEq, Repr

/-- server.receive_connection on the connection's byte stream: the first
byte is read as the uint8 username length (stream elements are byte
values; the reduction modulo 2^8 makes the uint8 range explicit), an
oversized declared length closes the connection and returns the error
upward, otherwise that many bytes are read as the username. -/
def receive_connection (stream : List Nat) : HandshakeResult :=
  match stream with
  | [] => ⟨none, []⟩
  | size :: rest =>
    if size % 256 > MAX_USERNAME_LENGTH then ⟨none, []⟩
    else ⟨some (rest.take (size % 256)), []⟩

/-- The content of the admission-conflict diagnostic in
server.listen_for_connections. -/
def usernameTaken : GoString := str "Username is taken\n"

/-- What server.listen_for_connections does with one successfully received
connection: registry afterwards, messages sent to the new peer, whether the
new connection was closed, and whether a receive_messages goroutine was
spawned for it. -/
structure AdmissionResult where
  registry : Registry
  sentToNew : List Message
  closedNew : Bool
  spawned : Bool
deriving DecidableEq, Repr

/-- One iteration of server.listen_for_connections after
receive_connection succeeded with the given username and handle. -/
def listen_step (reg : Registry) (username : GoString) (h : ConnHandle) : AdmissionResult :=
  match lookup reg username with
  | some _ => ⟨reg, [send_error usernameTaken], true, false⟩
  | none => ⟨(username, h) :: reg, [], false, true⟩

/-- ASCII code of the single-quote character used in the routing
diagnostic. -/
def singleQuote : Nat := 39

/-- The content of the routing diagnostic
fmt.Sprintf on "not connected" with the recipient name: the recipient's
name between single quotes, then the fixed tail ending in a newline. -/
def notConnectedContent (toName : GoString) : GoString :=
  [singleQuote] ++ toName ++ [singleQuote] ++ str " is not connected\n"

/-- The result of one iteration of server.process_message_queue.  `fatal`
stands for log.Fatal, which terminates the whole process. -/
inductive RouteResult where
  | delivered (c : ConnHandle) (m : Message)
  | errorToSender (c : ConnHandle) (e : Message)
  | dropped
  | fatal
deriving DecidableEq, Repr

/-- One iteration of server.process_message_queue on a dequeued message.
`writeOk` says whether the gob Encode call on the chosen connection
succeeds; on failure the source calls log.Fatal (both in the delivery path
and inside send_error). -/
def process_step (reg : Registry) (msg : Message) (writeOk : Bool) : RouteResult :=
  match lookup reg msg.To with
  | some toConn =>
    if writeOk then RouteResult.delivered toConn msg else RouteResult.fatal
  | none =>
    match lookup reg msg.From with
    | none => RouteResult.dropped
    | some fromConn =>
      if writeOk then
        RouteResult.errorToSender fromConn (send_error (notConnectedContent msg.To))
      else RouteResult.fatal

/-- Modelled from the spec: the steady-state wire codec of the repository
is Go's encoding/gob, a standard-library package whose code is not among
the repository's sources.  Following the spec's words (a self-delimiting
encoding of the four Envelope fields; numeric fields in any hand-rolled
framing fixed-width or otherwise self-delimiting; decode must reject a
to/content exceeding the limits rather than truncate), each string field
is written as a self-delimiting base-128 length prefix followed by its
bytes, and the error bit as one final byte.  `encodeNat` is that length
prefix. -/
def encodeNat (n : Nat) : List Nat :=
  if h : n < 128 then [n]
  else (n % 128 + 128) :: encodeNat (n / 128)
termination_by n
decreasing_by
  exact Nat.div_lt_self (by omega) (by omega)

/-- Modelled from the spec: reader for the `encodeNat` length prefix,
returning the value and the rest of the stream. -/
def decodeNat : List Nat → Option (Nat × List Nat)
  | [] => none
  | b :: rest =>
    if b < 128 then some (b, rest)
    else
      match decodeNat rest with
      | none => none
      | some (n, rest2) => some (b - 128 + 128 * n, rest2)

/-- Whether a decoded field length exceeds the limit imposed on that field
(`none` when the field has no limit). -/
def exceeds (limit : Option Nat) (len : Nat) : Bool :=
  match limit with
  | some l => decide (l < len)
  | none => false

/-- Modelled from the spec: one length-prefixed string field of the wire
encoding. -/
def encodeField (f : GoString) : List Nat :=
  encodeNat f.length ++ f

/-- Modelled from the spec: read one length-prefixed string field,
rejecting a declared length above the field's limit (never truncating). -/
def decodeField (limit : Option Nat) (s : List Nat) : Option (GoString × List Nat) :=
  match decodeNat s with
  | none => none
  | some (len, rest) =>
    if exceeds limit len then none
    else if rest.length < len then none
    else some (rest.take len, rest.drop len)

/-- Modelled from the spec: encode an Envelope for the wire. -/
def encode (e : Message) : List Nat :=
  encodeField e.To ++ encodeField e.From ++ encodeField e.Content ++
    [if e.Error then 1 else 0]

/-- Modelled from the spec: decode one Envelope from the head of a byte
stream, returning it with the unread remainder; the recipient and content
fields are bounded by MAX_USERNAME_LENGTH and MAX_MESSAGE_LENGTH, the
server-assigned sender field is not. -/
def decode (s : List Nat) : Option (Message × List Nat) :=
  match decodeField (some MAX_USERNAME_LENGTH) s with
  | none => none
  | some (toF, s1) =>
    match decodeField none s1 with
    | none => none
    | some (fromF, s2) =>
      match decodeField (some MAX_MESSAGE_LENGTH) s2 with
      | none => none
      | some (contentF, s3) =>
        match s3 with
        | 0 :: s4 => some (Message.mk toF fromF contentF false, s4)
        | 1 :: s4 => some (Message.mk toF fromF contentF true, s4)
        | _ => none

theorem decodeNat_encodeNat (n : Nat) :
    ∀ rest : List Nat, decodeNat (encodeNat n ++ rest) = some (n, rest) := by
  induction n using Nat.strong_induction_on with
  | _ n ih =>
    intro rest
    unfold encodeNat
    by_cases h : n < 128
    · simp [h, decodeNat]
    · rw [dif_neg h, List.cons_append]
      have hb : ¬ (n % 128 + 128 < 128) := by omega
      simp only [decodeNat, if_neg hb]
      rw [ih (n / 128) (Nat.div_lt_self (by omega) (by omega))]
      have hn : n % 128 + 128 - 128 + 128 * (n / 128) = n := by omega
      simp only [hn]

theorem decodeField_encodeField (limit : Option Nat) (f : GoString)
    (rest : List Nat) (h : exceeds limit f.length = false) :
    decodeField limit (encodeField f ++ rest) = some (f, rest) := by
  unfold decodeField encodeField
  rw [List.append_assoc, decodeNat_encodeNat]
  simp only [h, Bool.false_eq_true, if_false]
  have hlen : ¬ ((f ++ rest).length < f.length) := by
    simp [List.length_append]
  rw [if_neg hlen, List.take_left, List.drop_left]

/-! ## Claim theorems -/

/-- Claim C1 (code-bug evidence): the Inbound Pipeline's length validation
compares `uint16(len(...))`, which reduces the length modulo 2^16, so a
decoded message whose content is exactly 65536 bytes passes the 2048-byte
check and is enqueued unchanged; the claimed bound
`len(content) ≤ MAX_MESSAGE_LEN` fails for that enqueued envelope. -/
theorem receive_messages_length_truncation :
    receive_messages_step [] (Message.mk [] [] (List.replicate 65536 0) false)
      = some (Message.mk [] [] (List.replicate 65536 0) false)
    ∧ MAX_MESSAGE_LENGTH < (List.replicate 65536 (0 : Nat)).length := by
  have h : ∀ c : GoString, c.length = 65536 →
      receive_messages_step [] (Message.mk [] [] c false)
        = some (Message.mk [] [] c false) := by
    intro c hc
    unfold receive_messages_step
    simp [hc, MAX_USERNAME_LENGTH, MAX_MESSAGE_LENGTH]
  have hlen : (List.replicate 65536 (0 : Nat)).length = 65536 :=
    List.length_replicate 65536 0
  exact ⟨h _ hlen, by rw [hlen]; norm_num [MAX_MESSAGE_LENGTH]⟩

/-- Claim C2: whenever one iteration of the Inbound Pipeline enqueues a
message, the enqueued message's From field equals the pipeline's
registered username, whatever From value the client transmitted. -/
theorem receive_messages_stamps_sender (username : GoString) (msg m : Message)
    (h : receive_messages_step username msg = some m) : m.From = username := by
  unfold receive_messages_step at h
  by_cases h1 : msg.To.length % 65536 > MAX_USERNAME_LENGTH
  · simp [h1] at h
  · by_cases h2 : msg.Content.length % 65536 > MAX_MESSAGE_LENGTH
    · simp [h1, h2] at h
    · simp only [if_neg h1, if_neg h2, Option.some.injEq] at h
      rw [← h]

/-- Claim C2 witness: a concrete client message whose transmitted From
field "mallory" is replaced by the pipeline's name "alice". -/
theorem receive_messages_stamps_sender_witness :
    (Message.mk (str "bob") (str "alice") (str "hi") false).From = str "alice" :=
  receive_messages_stamps_sender (str "alice")
    (Message.mk (str "bob") (str "mallory") (str "hi") false)
    (Message.mk (str "bob") (str "alice") (str "hi") false)
    (by decide)

/-- Claim C3 counterexample: with "alice" registered, the one error
envelope sent to a second "alice" carries the content "Username is taken"
followed by a newline, not the bare text "Username is taken" that the
claim states. -/
theorem listen_step_taken_newline :
    (listen_step [(str "alice", 0)] (str "alice") 1).sentToNew
      = [send_error (str "Username is taken\n")]
    ∧ str "Username is taken\n" ≠ str "Username is taken" := by
  constructor
  · decide
  · decide

/-- Claim C3 (amended): an admission attempt with a name already present
in the registry sends the connecting peer exactly one error envelope, with
the error bit set and content "Username is taken" followed by a newline,
closes the new connection, performs no insertion (the registry is
unchanged and still maps the name to the original connection), and spawns
no Inbound Pipeline. -/
theorem listen_step_taken (reg : Registry) (username : GoString)
    (h : ConnHandle) (c : ConnHandle) (hc : lookup reg username = some c) :
    (listen_step reg username h).registry = reg ∧
    (listen_step reg username h).sentToNew = [send_error usernameTaken] ∧
    (send_error usernameTaken).Error = true ∧
    (listen_step reg username h).closedNew = true ∧
    (listen_step reg username h).spawned = false ∧
    lookup (listen_step reg username h).registry username = some c := by
  unfold listen_step
  rw [hc]
  exact ⟨rfl, rfl, rfl, rfl, rfl, hc⟩

/-- Claim C3 witness: the amended statement at a registry holding "alice"
under handle 0 when a second connection declares "alice". -/
theorem listen_step_taken_witness :
    (listen_step [(str "alice", 0)] (str "alice") 1).registry = [(str "alice", 0)] ∧
    (listen_step [(str "alice", 0)] (str "alice") 1).sentToNew = [send_error usernameTaken] ∧
    (send_error usernameTaken).Error = true ∧
    (listen_step [(str "alice", 0)] (str "alice") 1).closedNew = true ∧
    (listen_step [(str "alice", 0)] (str "alice") 1).spawned = false ∧
    lookup (listen_step [(str "alice", 0)] (str "alice") 1).registry (str "alice") = some 0 :=
  listen_step_taken [(str "alice", 0)] (str "alice") 1 0 (by decide)

/-- Claim C4: when the dequeued message's recipient is not registered, the
Router drops the envelope silently if the sender is also unregistered, and
otherwise sends the sender an error envelope with the error bit set whose
content names the unreachable recipient; in no case (whatever the write
outcome) is the original envelope delivered. -/
theorem process_step_unknown_recipient (reg : Registry) (msg : Message)
    (hto : lookup reg msg.To = none) :
    (lookup reg msg.From = none → process_step reg msg true = RouteResult.dropped) ∧
    (∀ c, lookup reg msg.From = some c →
      process_step reg msg true
        = RouteResult.errorToSender c (send_error (notConnectedContent msg.To)) ∧
      (send_error (notConnectedContent msg.To)).Error = true ∧
      msg.To <:+: (send_error (notConnectedContent msg.To)).Content) ∧
    (∀ w c m, process_step reg msg w ≠ RouteResult.delivered c m) := by
  refine ⟨?_, ?_, ?_⟩
  · intro hf
    unfold process_step
    rw [hto, hf]
  · intro c hf
    refine ⟨by simp [process_step, hto, hf], rfl, ?_⟩
    refine ⟨[singleQuote], [singleQuote] ++ str " is not connected\n", ?_⟩
    simp [send_error, notConnectedContent]
  · intro w c m
    unfold process_step
    rw [hto]
    cases hf : lookup reg msg.From with
    | none => simp
    | some fc => cases w <;> simp

/-- Claim C4 witness: with only "alice" registered, a message from "alice"
to the absent "carol" bounces back to "alice" as an error and is never
delivered. -/
theorem process_step_unknown_recipient_witness :
    (lookup [(str "alice", 0)]
        (Message.mk (str "carol") (str "alice") (str "hi") false).From = none →
      process_step [(str "alice", 0)]
        (Message.mk (str "carol") (str "alice") (str "hi") false) true
        = RouteResult.dropped) ∧
    (∀ c, lookup [(str "alice", 0)]
        (Message.mk (str "carol") (str "alice") (str "hi") false).From = some c →
      process_step [(str "alice", 0)]
        (Message.mk (str "carol") (str "alice") (str "hi") false) true
        = RouteResult.errorToSender c (send_error (notConnectedContent
            (Message.mk (str "carol") (str "alice") (str "hi") false).To)) ∧
      (send_error (notConnectedContent
          (Message.mk (str "carol") (str "alice") (str "hi") false).To)).Error = true ∧
      (Message.mk (str "carol") (str "alice") (str "hi") false).To <:+:
        (send_error (notConnectedContent
          (Message.mk (str "carol") (str "alice") (str "hi") false).To)).Content) ∧
    (∀ w c m, process_step [(str "alice", 0)]
        (Message.mk (str "carol") (str "alice") (str "hi") false) w
        ≠ RouteResult.delivered c m) :=
  process_step_unknown_recipient [(str "alice", 0)]
    (Message.mk (str "carol") (str "alice") (str "hi") false) (by decide)

/-- Claim C5: the wire codec round-trips every envelope within the size
limits: decoding the encoding of an envelope whose recipient field is at
most 32 bytes and whose content is at most 2048 bytes returns that
envelope exactly, with nothing left unread. -/
theorem decode_encode (e : Message)
    (hto : e.To.length ≤ MAX_USERNAME_LENGTH)
    (hc : e.Content.length ≤ MAX_MESSAGE_LENGTH) :
    decode (encode e) = some (e, []) := by
  obtain ⟨t, f, c, err⟩ := e
  simp only at hto hc
  have h1 := decodeField_encodeField (some MAX_USERNAME_LENGTH) t
      (encodeField f ++ (encodeField c ++ [if err then 1 else 0]))
      (by simp [exceeds]; omega)
  have h2 := decodeField_encodeField none f
      (encodeField c ++ [if err then 1 else 0]) rfl
  have h3 := decodeField_encodeField (some MAX_MESSAGE_LENGTH) c
      ([if err then 1 else 0]) (by simp [exceeds]; omega)
  unfold decode encode
  simp only [List.append_assoc]
  rw [h1]
  simp only [h2, h3]
  cases err <;> simp

/-- Claim C5 witness: the round trip evaluated on a concrete in-bounds
envelope. -/
theorem decode_encode_witness :
    decode (encode (Message.mk (str "bob") (str "alice") (str "hi") false))
      = some (Message.mk (str "bob") (str "alice") (str "hi") false, []) :=
  decode_encode (Message.mk (str "bob") (str "alice") (str "hi") false)
    (by decide) (by decide)

/-- Claim C6 counterexample: with "bob" registered, a failed write while
delivering to "bob" ends the iteration in log.Fatal (whole-process
termination), not in an internally terminal log-and-drop. -/
theorem process_step_write_failure_fatal :
    process_step [(str "bob", 0)]
      (Message.mk (str "bob") (str "alice") (str "hi") false) false
      = RouteResult.fatal := by decide

/-- Claim C6 (amended): the Router does not log-and-drop on write failure:
whenever a write is attempted (the recipient is registered, or the
recipient is absent but the sender is registered), a failing write ends in
log.Fatal and the whole process terminates; only the writeless
lookup-failure path is internally terminal, and a failed iteration never
delivers the envelope (there is no retry). -/
theorem process_step_write_failure (reg : Registry) (msg : Message) :
    (process_step reg msg false = RouteResult.fatal ↔
      (lookup reg msg.To).isSome = true ∨ (lookup reg msg.From).isSome = true) ∧
    (∀ c m, process_step reg msg false ≠ RouteResult.delivered c m) := by
  constructor
  · unfold process_step
    cases ht : lookup reg msg.To with
    | some tc => simp
    | none =>
      cases hf : lookup reg msg.From with
      | none => simp
      | some fc => simp
  · intro c m
    unfold process_step
    cases ht : lookup reg msg.To with
    | some tc => simp
    | none =>
      cases hf : lookup reg msg.From with
      | none => simp
      | some fc => simp

/-- Claim C7: the Admission Handler rejects any declared 1-byte name
length above MAX_USERNAME_LENGTH, closing the connection, reporting the
error upward and sending nothing to the peer; a declared length within the
limit is accepted and that many bytes are read as the name; in particular
32 is accepted and 33 is rejected. -/
theorem receive_connection_name_length (size : Nat) (rest : List Nat)
    (hsize : size < 256) :
    (MAX_USERNAME_LENGTH < size →
      receive_connection (size :: rest) = ⟨none, []⟩) ∧
    (size ≤ MAX_USERNAME_LENGTH →
      receive_connection (size :: rest) = ⟨some (rest.take size), []⟩) ∧
    receive_connection (32 :: rest) = ⟨some (rest.take 32), []⟩ ∧
    receive_connection (33 :: rest) = ⟨none, []⟩ := by
  have hmod : size % 256 = size := Nat.mod_eq_of_lt hsize
  refine ⟨?_, ?_, ?_, ?_⟩
  · intro hgt
    simp only [receive_connection]
    rw [if_pos (by rw [hmod]; exact hgt)]
  · intro hle
    simp only [receive_connection]
    rw [if_neg (by rw [hmod]; omega), hmod]
  · simp only [receive_connection]
    norm_num [MAX_USERNAME_LENGTH]
  · simp only [receive_connection]
    norm_num [MAX_USERNAME_LENGTH]

/-- Claim C7 witness: a declared length of 33 on an otherwise empty stream
is rejected with nothing sent, while 32 and the in-limit branch accept. -/
theorem receive_connection_name_length_witness :
    (MAX_USERNAME_LENGTH < 33 →
      receive_connection (33 :: []) = ⟨none, []⟩) ∧
    ((33 : Nat) ≤ MAX_USERNAME_LENGTH →
      receive_connection (33 :: []) = ⟨some (List.take 33 []), []⟩) ∧
    receive_connection (32 :: []) = ⟨some (List.take 32 []), []⟩ ∧
    receive_connection (33 :: []) = ⟨none, []⟩ :=
  receive_connection_name_length 33 [] (by omega)

/-- Claim C9: unregistering a name that is absent from the registry leaves
the registry unchanged, and repeating the unregister is still a no-op. -/
theorem unregister_absent (reg : Registry) (name : GoString)
    (h : lookup reg name = none) :
    unregister reg name = reg ∧
    unregister (unregister reg name) name = unregister reg name := by
  have hall : ∀ p ∈ reg, ¬ p.1 = name := by
    intro p hp
    unfold lookup at h
    cases hfind : reg.find? (fun q => decide (q.1 = name)) with
    | some q => rw [hfind] at h; cases h
    | none =>
      have := List.find?_eq_none.mp hfind p hp
      simpa using this
  have h1 : unregister reg name = reg := by
    unfold unregister
    apply List.filter_eq_self.mpr
    intro a ha
    simp [hall a ha]
  exact ⟨h1, by rw [h1, h1]⟩

/-- Claim C9 witness: unregistering the absent "bob" from a registry
holding only "alice" changes nothing, twice over. -/
theorem unregister_absent_witness :
    unregister [(str "alice", 0)] (str "bob") = [(str "alice", 0)] ∧
    unregister (unregister [(str "alice", 0)] (str "bob")) (str "bob")
      = unregister [(str "alice", 0)] (str "bob") :=
  unregister_absent [(str "alice", 0)] (str "bob") (by decide)

/-- Claim C10: both server-generated error envelopes (the admission
conflict diagnostic and the routing-failure diagnostic, for every
recipient name) have an empty To, an empty From, the error bit set, and a
content ending in a newline (byte 10). -/
theorem server_error_envelopes (toName : GoString) :
    (send_error usernameTaken).To = [] ∧
    (send_error usernameTaken).From = [] ∧
    (send_error usernameTaken).Error = true ∧
    (send_error usernameTaken).Content.getLast? = some 10 ∧
    (send_error (notConnectedContent toName)).To = [] ∧
    (send_error (notConnectedContent toName)).From = [] ∧
    (send_error (notConnectedContent toName)).Error = true ∧
    (send_error (notConnectedContent toName)).Content.getLast? = some 10 := by
  refine ⟨rfl, rfl, rfl, by decide, rfl, rfl, rfl, ?_⟩
  show (notConnectedContent toName).getLast? = some 10
  unfold notConnectedContent
  rw [List.getLast?_append, List.getLast?_append, List.getLast?_append]
  have htail : (str " is not connected\n").getLast? = some 10 := by decide
  rw [htail]
  rfl

end Chat
